import Mathlib

/-
Verification of the NANPA prefix updater pipeline (nanpa_updater.py).

The embedding below translates the pure data-processing core of the script
into Lean: string helpers model the Python string operations (case mapping
and whitespace on the ASCII range in which the NANPA data lives, the digit
test `str.isdigit` on its Unicode-aware behaviour), rows are modelled as
insertion-ordered association lists with dict semantics (duplicate keys
collapse, last assignment wins), and the dataset builder is modelled as a
fold over the walked file list.  File reading is modelled with `Except`:
the script has no try/except around the tabular readers, so a read error
propagates out of the build.
-/

namespace Nanpa

/-- ASCII fragment of Python `str.upper`. -/
def pyUpper (s : String) : String := String.mk (s.toList.map Char.toUpper)

/-- ASCII fragment of Python `str.lower`. -/
def pyLower (s : String) : String := String.mk (s.toList.map Char.toLower)

/-- ASCII whitespace, as stripped by Python `str.strip`. -/
def isSpaceChar (c : Char) : Bool :=
  c = ' ' || c = '\t' || c = '\n' || c = '\r' || c = '\x0b' || c = '\x0c'

/-- Python `str.strip`: drop whitespace from both ends. -/
def pyStrip (s : String) : String :=
  String.mk (((s.toList.dropWhile isSpaceChar).reverse.dropWhile isSpaceChar).reverse)

/-- The character test of Python `str.isdigit`.  Python's test is
Unicode-aware: besides ASCII 0-9 it accepts the other Unicode digit
characters.  It is modelled here on the digit ranges exercised in this
development — ASCII, Arabic-Indic, Extended Arabic-Indic, Devanagari,
superscript and subscript digits, fullwidth digits; Python accepts further
Unicode digit characters, which would only enlarge the non-ASCII part of the
set. -/
def pyIsdigitChar (c : Char) : Bool :=
  let n := c.toNat
  (0x30 ≤ n && n ≤ 0x39) ||
  (0x660 ≤ n && n ≤ 0x669) ||
  (0x6F0 ≤ n && n ≤ 0x6F9) ||
  (0x966 ≤ n && n ≤ 0x96F) ||
  n == 0xB2 || n == 0xB3 || n == 0xB9 ||
  n == 0x2070 || (0x2074 ≤ n && n ≤ 0x2079) ||
  (0x2080 ≤ n && n ≤ 0x2089) ||
  (0xFF10 ≤ n && n ≤ 0xFF19)

/-- Python `str.isdigit`: true iff the string is nonempty and every
character passes the Unicode digit test. -/
def pyIsdigit (s : String) : Bool :=
  !s.toList.isEmpty && s.toList.all pyIsdigitChar

/-- Python `a or b` for strings: the empty string is falsy. -/
def pyOr (a b : String) : String := if a = "" then b else a

/-- Python slicing `s[:n]` by code point. -/
def strTake (s : String) (n : Nat) : String := String.mk (s.toList.take n)

/-- Python slicing `s[n:]` by code point. -/
def strDrop (s : String) (n : Nat) : String := String.mk (s.toList.drop n)

/-- Substring occurrence on character lists (needle searched in haystack). -/
def containsSub : List Char → List Char → Bool
  | [], pat => pat.isEmpty
  | c :: rest, pat => pat.isPrefixOf (c :: rest) || containsSub rest pat

/-- Python `pat in s` substring test. -/
def strIn (pat s : String) : Bool := containsSub s.toList pat.toList

/-- Python `s.endswith(suf)`. -/
def endsWith (s suf : String) : Bool := suf.toList.isSuffixOf s.toList

/-- Helper for Python `str.split(delim)`: split a character list at a
delimiter, accumulating the current field in reverse. -/
def splitChGo (d : Char) : List Char → List Char → List (List Char)
  | [], acc => [acc.reverse]
  | c :: cs, acc => if c = d then acc.reverse :: splitChGo d cs [] else splitChGo d cs (c :: acc)

/-- Python `line.split(delim)` for a one-character delimiter. -/
def splitDelim (line : String) (d : Char) : List String :=
  (splitChGo d line.toList []).map String.mk

/-- Helper for Python `s.split(c, 1)`: everything before the first occurrence
of the delimiter, and everything after it. -/
def splitOnceCh (d : Char) : List Char → List Char × List Char
  | [] => ([], [])
  | c :: cs =>
    if c = d then ([], cs)
    else
      let p := splitOnceCh d cs
      (c :: p.1, p.2)

/-- Python `s.split('-', 1)` under the guard that the delimiter occurs. -/
def splitOnce (s : String) (d : Char) : String × String :=
  let p := splitOnceCh d s.toList
  (String.mk p.1, String.mk p.2)

/-- Python `str.title` restricted to ASCII: uppercase a letter after a
non-letter, lowercase a letter after a letter. -/
def pyTitleGo : List Char → Bool → List Char
  | [], _ => []
  | c :: cs, prevAlpha =>
    (if c.isAlpha then (if prevAlpha then c.toLower else c.toUpper) else c)
      :: pyTitleGo cs c.isAlpha

/-- Python `s.title()`. -/
def pyTitle (s : String) : String := String.mk (pyTitleGo s.toList false)

/-- `safe_title` from the script: `s.title().replace("_", " ") if s else ""`. -/
def safe_title (s : String) : String :=
  if s = "" then ""
  else String.mk ((pyTitle s).toList.map (fun c => if c = '_' then ' ' else c))

/-- A parsed row: an insertion-ordered mapping from header name to value,
as produced by a Python dict with string keys and values. -/
abbrev Row := List (String × String)

/-- Python dict assignment `m[k] = v`: replace in place if the key exists,
else append. -/
def upsert {α : Type} (m : List (String × α)) (k : String) (v : α) : List (String × α) :=
  if m.any (fun p => p.1 == k) then
    m.map (fun p => if p.1 == k then (k, v) else p)
  else m ++ [(k, v)]

/-- Python `dict(pairs)`: later pairs overwrite earlier ones. -/
def mkDict (pairs : List (String × String)) : Row :=
  pairs.foldl (fun acc kv => upsert acc kv.1 kv.2) []

/-- Dict lookup `m.get(k)` on an association list: first entry with the key
(keys are unique in a dict, so this is the entry). -/
def alookup {α : Type} : List (String × α) → String → Option α
  | [], _ => none
  | p :: ps, k => if p.1 == k then some p.2 else alookup ps k

/-- Python `row.get(k)`: `none` when the key is absent. -/
def Row.get? (row : Row) (k : String) : Option String :=
  alookup row k

/-- Python `row.get(k) or ''` collapsed: absent keys read as the empty string. -/
def Row.getS (row : Row) (k : String) : String := (Row.get? row k).getD ""

-- ---------------------------------------------------------------- STATE_MAP

/-- The fixed state table from the script: 50 states plus DC. -/
def STATE_MAP : List (String × String) := [
  ("AL", "Alabama"), ("AK", "Alaska"), ("AZ", "Arizona"), ("AR", "Arkansas"),
  ("CA", "California"), ("CO", "Colorado"), ("CT", "Connecticut"), ("DE", "Delaware"),
  ("DC", "District of Columbia"), ("FL", "Florida"), ("GA", "Georgia"), ("HI", "Hawaii"),
  ("ID", "Idaho"), ("IL", "Illinois"), ("IN", "Indiana"), ("IA", "Iowa"),
  ("KS", "Kansas"), ("KY", "Kentucky"), ("LA", "Louisiana"), ("ME", "Maine"),
  ("MD", "Maryland"), ("MA", "Massachusetts"), ("MI", "Michigan"), ("MN", "Minnesota"),
  ("MS", "Mississippi"), ("MO", "Missouri"), ("MT", "Montana"), ("NE", "Nebraska"),
  ("NV", "Nevada"), ("NH", "New Hampshire"), ("NJ", "New Jersey"), ("NM", "New Mexico"),
  ("NY", "New York"), ("NC", "North Carolina"), ("ND", "North Dakota"), ("OH", "Ohio"),
  ("OK", "Oklahoma"), ("OR", "Oregon"), ("PA", "Pennsylvania"), ("RI", "Rhode Island"),
  ("SC", "South Carolina"), ("SD", "South Dakota"), ("TN", "Tennessee"), ("TX", "Texas"),
  ("UT", "Utah"), ("VT", "Vermont"), ("VA", "Virginia"), ("WA", "Washington"),
  ("WV", "West Virginia"), ("WI", "Wisconsin"), ("WY", "Wyoming")]

/-- `STATE_MAP.get(k)` as an option. -/
def stateLookup (k : String) : Option String :=
  alookup STATE_MAP k

/-- `STATE_MAP.get(state_abbr.upper(), state_abbr)` from the script. -/
def normState (abbr : String) : String := (stateLookup (pyUpper abbr)).getD abbr

-- ------------------------------------------------- BRAND / TYPE CLASSIFIERS

/-- `BRAND_KEYWORDS` from the script: ordered parent-brand rules. -/
def BRAND_KEYWORDS : List (List String × String) := [
  (["NEW CINGULAR", "AT&T MOBILITY", "AT&T", "CRICKET", "FIRSTNET", "FIRST NET"], "AT&T"),
  (["CELLCO PARTNERSHIP", "VERIZON WIRELESS", "VERIZON", "TRACFONE", "STRAIGHT TALK",
    "TOTAL BY VERIZON", "SIMPLE MOBILE", "NET10", "NET 10", "PAGE PLUS", "SAFELINK"], "Verizon"),
  (["T-MOBILE", "TMOBILE", "METROPCS", "METRO BY T-MOBILE", "METRO ", "SPRINT SPECTRUM",
    "SPRINT", "CLEARWIRE", "MINT MOBILE", "ULTRA MOBILE", "GOOGLE FI"], "T-Mobile"),
  (["US CELLULAR", "UNITED STATES CELLULAR"], "UScellular"),
  (["DISH WIRELESS", "BOOST MOBILE", "BOOST"], "DISH")]

/-- `WIRELESS_KEYWORDS` from the script. -/
def WIRELESS_KEYWORDS : List String := ["WIRELESS", "MOBILE", "CELL", "PCS", "LTE", "5G"]

/-- `VOIP_KEYWORDS` from the script. -/
def VOIP_KEYWORDS : List String :=
  ["VOIP", "VONAGE", "BANDWIDTH", "LEVEL 3", "L3", "LUMEN VOIP", "TWILIO", "ZOOM PHONE"]

/-- `PAGING_KEYWORDS` from the script. -/
def PAGING_KEYWORDS : List String := ["PAGING", "USA MOBILITY", "AMERICAN MESSAGING"]

/-- `LANDLINE_KEYWORDS` from the script. -/
def LANDLINE_KEYWORDS : List String := [
  "FRONTIER", "WINDSTREAM", "CONSOLIDATED COMMUNICATIONS",
  "CENTURYLINK", "EMBARQ", "QWEST", "LUMEN",
  "COX", "COMCAST", "XFINITY", "CHARTER", "SPECTRUM",
  "VERIZON", "AT&T"]

/-- `normalize_brand`: first brand rule any of whose keywords occurs as a
substring of the uppercased company string; empty when none matches. -/
def normalize_brand (company : String) : String :=
  let c := pyUpper company
  match BRAND_KEYWORDS.find? (fun kb => kb.1.any (fun kw => strIn kw c)) with
  | some kb => kb.2
  | none => ""

/-- The wireless-parent set tested first by `detect_type`. -/
def WIRELESS_PARENTS : List String := ["AT&T", "Verizon", "T-Mobile", "UScellular", "DISH"]

/-- `detect_type` from the script: ordered keyword-family checks, blank when
nothing matches. -/
def detect_type (company brand : String) : String :=
  let c := pyUpper company
  if WIRELESS_PARENTS.contains brand then "Mobile"
  else if WIRELESS_KEYWORDS.any (fun kw => strIn kw c) then "Mobile"
  else if VOIP_KEYWORDS.any (fun kw => strIn kw c) then "VoIP"
  else if PAGING_KEYWORDS.any (fun kw => strIn kw c) then "Paging"
  else if LANDLINE_KEYWORDS.any (fun kw => strIn kw c) then "Landline"
  else ""

-- --------------------------------------------------------------- RESOLUTION

/-- `row.get('NPA-NXX') or row.get('NPA NXX') or ''` from `build_data`. -/
def combinedField (row : Row) : String :=
  pyOr (Row.getS row "NPA-NXX") (Row.getS row "NPA NXX")

/-- The prefix-resolution block of `build_data` (lines 239-252): a hyphenated
combined field is split once on the hyphen; a 6-digit combined field is split
3/3; otherwise the separate NPA and NXX columns are consulted.  The result is
the pair `(npa, nxx)`, both empty when nothing applied. -/
def resolveNpaNxx (row : Row) : String × String :=
  let npa_nxx := combinedField row
  if npa_nxx.toList.contains '-' then
    let p := splitOnce npa_nxx '-'
    if pyIsdigit p.1 && pyIsdigit p.2 then (p.1, p.2) else ("", "")
  else if npa_nxx.length == 6 && pyIsdigit npa_nxx then
    (strTake npa_nxx 3, strDrop npa_nxx 3)
  else
    let a := pyStrip (Row.getS row "NPA")
    let b := pyStrip (Row.getS row "NXX")
    if pyIsdigit a && pyIsdigit b then (a, b) else ("", "")

/-- The acceptance test of `build_data` (line 254): both parts nonempty,
length 3, all digits. -/
def acceptParts (npa nxx : String) : Bool :=
  !npa.toList.isEmpty && !nxx.toList.isEmpty &&
    npa.length == 3 && nxx.length == 3 && pyIsdigit npa && pyIsdigit nxx

-- ------------------------------------------------------------------- RECORD

/-- The Prefix Record emitted by `build_data` (lines 272-283).  The Python
`prefix` key is named `pfx` here. -/
structure Rec where
  pfx : String
  ocn : String
  company : String
  company_original : String
  carrier : String
  type : String
  rate_center : String
  city : String
  state : String
  last_source : String
deriving DecidableEq

/-- `row.get('Company') or row.get('Operating Company Name') or ''`. -/
def companyOf (row : Row) : String :=
  pyOr (Row.getS row "Company") (Row.getS row "Operating Company Name")

/-- Field extraction and record construction of `build_data` (lines 257-283)
for an accepted row with parts `npa`, `nxx`, read from file `fn`. -/
def mkRec (fn : String) (row : Row) (npa nxx : String) : Rec :=
  let company_original := companyOf row
  let ocn := pyOr (Row.getS row "OCN") (Row.getS row "OCN ")
  let rate_center := pyOr (Row.getS row "RateCenter") (Row.getS row "Rate Center")
  let state_abbr := pyStrip (Row.getS row "State")
  let carrier := pyOr (normalize_brand company_original) company_original
  { pfx := npa ++ nxx
    ocn := ocn
    company := company_original
    company_original := company_original
    carrier := carrier
    type := detect_type company_original (normalize_brand company_original)
    rate_center := rate_center
    city := safe_title rate_center
    state := normState state_abbr
    last_source := fn }

-- ---------------------------------------------------------- DATASET BUILDER

/-- The in-memory dataset: a Python dict keyed by prefix. -/
abbrev Dataset := List (String × Rec)

/-- Dict lookup on the dataset. -/
def dlookup (d : Dataset) (k : String) : Option Rec :=
  alookup d k

/-- Processing of one raw row by `build_data`: resolve the parts, and on
acceptance store the record under its prefix (`data[prefix] = rec`). -/
def processRow (d : Dataset) (fn : String) (row : Row) : Dataset :=
  if acceptParts (resolveNpaNxx row).1 (resolveNpaNxx row).2 then
    upsert d ((resolveNpaNxx row).1 ++ (resolveNpaNxx row).2)
      (mkRec fn row (resolveNpaNxx row).1 (resolveNpaNxx row).2)
  else d

/-- Processing of all rows of one file by `build_data`. -/
def processFile (d : Dataset) (fn : String) (rows : List Row) : Dataset :=
  rows.foldl (fun acc row => processRow acc fn row) d

/-- The eligibility test of `build_data`:
`fn.lower().endswith(('.txt', '.csv', '.xlsx'))`. -/
def eligible (fn : String) : Bool :=
  [".txt", ".csv", ".xlsx"].any (fun e => endsWith (pyLower fn) e)

/-- The file loop of `build_data` over the walked file list.  Each walked
file carries its base name and the outcome of reading it: the list of parsed
rows, or the error the reader raised.  `build_data` has no try/except, so a
reader error propagates and aborts the build. -/
def build_dataGo (d : Dataset) : List (String × Except String (List Row)) → Except String Dataset
  | [] => Except.ok d
  | f :: fs =>
    if eligible f.1 then
      match f.2 with
      | Except.ok rows => build_dataGo (processFile d f.1 rows) fs
      | Except.error e => Except.error e
    else build_dataGo d fs

/-- `build_data` over a walked file list, starting from the empty dataset. -/
def build_data (files : List (String × Except String (List Row))) : Except String Dataset :=
  build_dataGo [] files

-- -------------------------------------------------------------- PERSISTENCE

/-- The column tuple inserted by `save_sqlite` for one record (lines 323-328):
prefix, ocn, company, company_original, carrier, type, rate_center, city,
state, last_source. -/
def sqliteRow (r : Rec) : List String :=
  [r.pfx, r.ocn, r.company, r.company_original, r.carrier, r.type,
   r.rate_center, r.city, r.state, r.last_source]

/-- The rows `save_sqlite` inserts into the `prefixes` table. -/
def save_sqlite (d : Dataset) : List (List String) :=
  d.map (fun q => sqliteRow q.2)

-- ---------------------------------------------------------------- EXTRACTOR

/-- `extract_all` (lines 185-204): every `.zip` entry of the source directory
is opened; a corrupt container (`BadZipFile`) is skipped with a warning and
the loop continues; a valid one contributes its member files to the working
directory.  An entry carries its name and either its member files or the
corrupt-container error. -/
def extract_all (zips : List (String × Except Unit (List String))) : List String :=
  zips.foldl (fun acc z =>
    if endsWith (pyLower z.1) ".zip" then
      match z.2 with
      | Except.ok files => acc ++ files
      | Except.error _ => acc
    else acc) []

-- ------------------------------------------------------------------ READERS

/-- `str(v).strip() if v else ''` applied to a spreadsheet cell: `None` and
the empty string become the empty string, anything else is stripped. -/
def pyStrCell : Option String → String
  | none => ""
  | some v => if v = "" then "" else pyStrip v

/-- The spreadsheet branch of `iter_rows_from_file` (lines 209-215): the
first row of the sheet gives the headers, every later row is zipped against
the headers positionally into a dict. -/
def xlsxRows (sheet : List (List (Option String))) : List Row :=
  match sheet with
  | [] => []
  | hrow :: rest =>
    let headers := hrow.map pyStrCell
    rest.map (fun r => mkDict (headers.zip (r.map pyStrCell)))

/-- One `csv.DictReader` row turned into the stripped dict of the script
(line 223): values are zipped against the fieldnames, missing values read as
`None` (hence the empty string after `or ''`), extra values are dropped, and
keys and values are stripped.  CSV quoting is not modelled; fields are split
on the bare delimiter, which is exact for the delimiter-free NANPA fields. -/
def csvRowFromLine (headers : List String) (line : String) (d : Char) : Row :=
  let vals := splitDelim line d
  let n := headers.length
  let padded := vals.take n ++ List.replicate (n - vals.length) ""
  mkDict ((headers.zip padded).map (fun kv => (pyStrip kv.1, pyStrip kv.2)))

/-- The text branch of `iter_rows_from_file` (lines 217-223): the delimiter
is a tab when the first line contains one, else a comma; the first line is
the header row; blank lines are skipped by the csv reader. -/
def textRows (lines : List String) : List Row :=
  match lines with
  | [] => []
  | first :: rest =>
    let d := if first.toList.contains '\t' then '\t' else ','
    let headers := splitDelim first d
    (rest.filter (fun l => l ≠ "")).map (fun line => csvRowFromLine headers line d)

-- -------------------------------------------------- SPEC-SHAPED DEFINITIONS

/-- First-match evaluation of an ordered list of (condition, label) rules;
the empty string when no rule fires. -/
def firstMatchLabel : List (Bool × String) → String
  | [] => ""
  | r :: rest => if r.1 then r.2 else firstMatchLabel rest

/-- The type classifier stated as the spec words it: a fixed ordered rule
list, first match wins, blank when nothing matches. -/
def detect_type_spec (company brand : String) : String :=
  let c := pyUpper company
  firstMatchLabel
    [(WIRELESS_PARENTS.contains brand, "Mobile"),
     (WIRELESS_KEYWORDS.any (fun kw => strIn kw c), "Mobile"),
     (VOIP_KEYWORDS.any (fun kw => strIn kw c), "VoIP"),
     (PAGING_KEYWORDS.any (fun kw => strIn kw c), "Paging"),
     (LANDLINE_KEYWORDS.any (fun kw => strIn kw c), "Landline")]

/-- Resolution method 1 of the spec: split the hyphenated combined field
once on the hyphen, succeed only when both parts are purely numeric. -/
def method1 (s : String) : Option (String × String) :=
  let p := splitOnce s '-'
  if pyIsdigit p.1 && pyIsdigit p.2 then some p else none

/-- Resolution method 2 of the spec: a combined field of exactly 6 numeric
characters is split positionally 3/3. -/
def method2 (s : String) : Option (String × String) :=
  if s.length == 6 && pyIsdigit s then some (strTake s 3, strDrop s 3) else none

/-- Resolution method 3 of the spec: the separate NPA and NXX columns,
accepted only when both are purely numeric. -/
def method3 (row : Row) : Option (String × String) :=
  let a := pyStrip (Row.getS row "NPA")
  let b := pyStrip (Row.getS row "NXX")
  if pyIsdigit a && pyIsdigit b then some (a, b) else none

/-- The amended dispatch: a hyphenated combined field commits to method 1
(its failure skips the row without consulting the separate columns); without
a hyphen, method 2 is tried and only its inapplicability falls through to
method 3. -/
def resolve_spec (row : Row) : String × String :=
  let s := combinedField row
  if s.toList.contains '-' then (method1 s).getD ("", "")
  else ((method2 s).orElse (fun _ => method3 row)).getD ("", "")

-- --------------------------------------------------------- EXAMPLE FIXTURES

/-- A row whose combined field is hyphenated but non-numeric, while separate
numeric NPA and NXX columns are present. -/
def C2row : Row := [("NPA-NXX", "ABC-DEF"), ("NPA", "212"), ("NXX", "555")]

/-- A single well-formed raw row. -/
def goodRow : Row := [("NPA-NXX", "212-555")]

/-- A row whose combined field is made of Arabic-Indic digits: Python's
`str.isdigit` accepts them, so the builder accepts this row. -/
def C1urow : Row := [("NPA-NXX", "٢٢٢-٥٥٥")]

/-- The end-to-end scenario file: header line and one data row. -/
def C9lines : List String := ["NPA-NXX,Company,State", "212-555,AT&T Mobility LLC,NY"]

/-- The row parsed from the data line of `C9lines`. -/
def C9row : Row := [("NPA-NXX", "212-555"), ("Company", "AT&T Mobility LLC"), ("State", "NY")]

/-- A row whose company matches no brand keyword and no type keyword. -/
def C6row : Row := [("Company", "ACME TELECOM")]

/-- First of two rows carrying the same prefix. -/
def C8row1 : Row := [("NPA-NXX", "212-555"), ("Company", "Acme Co")]

/-- Second row with the same prefix, via the 6-digit combined field. -/
def C8row2 : Row := [("NPA NXX", "212555"), ("Company", "Beta Co")]

-- ------------------------------------------------------------ DICT LEMMATA

theorem toList_append (a b : String) : (a ++ b).toList = a.toList ++ b.toList :=
  String.data_append a b

theorem mem_upsert {α : Type} {m : List (String × α)} {k : String} {v : α} {q : String × α}
    (hq : q ∈ upsert m k v) : q ∈ m ∨ q = (k, v) := by
  unfold upsert at hq
  by_cases h : m.any (fun p => p.1 == k) = true
  · rw [if_pos h] at hq
    rcases List.mem_map.mp hq with ⟨p, hp, he⟩
    by_cases hk : (p.1 == k) = true
    · rw [if_pos hk] at he
      right
      exact he.symm
    · rw [if_neg hk] at he
      left
      exact he ▸ hp
  · rw [if_neg h] at hq
    rcases List.mem_append.mp hq with h1 | h1
    · left
      exact h1
    · right
      simpa using h1

theorem alookup_map_replace_self {α : Type} (k : String) (v : α) :
    ∀ m : List (String × α), m.any (fun p => p.1 == k) = true →
      alookup (m.map (fun p => if p.1 == k then (k, v) else p)) k = some v
  | [], h => by simp at h
  | p :: ps, h => by
      rw [List.map_cons]
      by_cases hk : (p.1 == k) = true
      · rw [if_pos hk]
        simp [alookup]
      · rw [if_neg hk]
        simp only [alookup]
        rw [if_neg hk]
        rw [List.any_cons] at h
        rcases Bool.or_eq_true_iff.mp h with h1 | h1
        · exact absurd h1 hk
        · exact alookup_map_replace_self k v ps h1

theorem alookup_map_replace_ne {α : Type} (k k' : String) (v : α) (hne : ¬ k' = k) :
    ∀ m : List (String × α),
      alookup (m.map (fun p => if p.1 == k' then (k', v) else p)) k = alookup m k
  | [] => rfl
  | p :: ps => by
      rw [List.map_cons]
      by_cases hk : (p.1 == k') = true
      · have hp1 : p.1 = k' := by simpa using hk
        rw [if_pos hk]
        have hne2 : ¬ (k' == k) = true := by simpa using hne
        simp only [alookup]
        rw [if_neg hne2, if_neg (hp1 ▸ hne2)]
        exact alookup_map_replace_ne k k' v hne ps
      · rw [if_neg hk]
        by_cases hfk : (p.1 == k) = true
        · simp only [alookup]
          rw [if_pos hfk, if_pos hfk]
        · simp only [alookup]
          rw [if_neg hfk, if_neg hfk]
          exact alookup_map_replace_ne k k' v hne ps

theorem alookup_append_singleton_ne {α : Type} {k k' : String} (v : α) (hne : ¬ k' = k) :
    ∀ m : List (String × α), alookup (m ++ [(k', v)]) k = alookup m k
  | [] => by
      simp only [List.nil_append, alookup]
      rw [if_neg (by simpa using hne)]
  | p :: ps => by
      rw [List.cons_append]
      by_cases hfk : (p.1 == k) = true
      · simp only [alookup]
        rw [if_pos hfk, if_pos hfk]
      · simp only [alookup]
        rw [if_neg hfk, if_neg hfk]
        exact alookup_append_singleton_ne v hne ps

theorem alookup_of_any_eq_false {α : Type} (k : String) :
    ∀ m : List (String × α), m.any (fun p => p.1 == k) = false → alookup m k = none
  | [], _ => rfl
  | p :: ps, h => by
      rw [List.any_cons] at h
      rcases Bool.or_eq_false_iff.mp h with ⟨h1, h2⟩
      simp only [alookup]
      rw [if_neg (by simp [h1])]
      exact alookup_of_any_eq_false k ps h2

theorem alookup_append_of_none {α : Type} (l2 : List (String × α)) (k : String) :
    ∀ l1 : List (String × α), alookup l1 k = none →
      alookup (l1 ++ l2) k = alookup l2 k
  | [], _ => rfl
  | p :: ps, h => by
      by_cases hk : (p.1 == k) = true
      · simp only [alookup] at h
        rw [if_pos hk] at h
        cases h
      · simp only [alookup] at h
        rw [if_neg hk] at h
        rw [List.cons_append]
        simp only [alookup]
        rw [if_neg hk]
        exact alookup_append_of_none l2 k ps h

theorem alookup_upsert_self {α : Type} (m : List (String × α)) (k : String) (v : α) :
    alookup (upsert m k v) k = some v := by
  unfold upsert
  by_cases h : m.any (fun p => p.1 == k) = true
  · rw [if_pos h]
    exact alookup_map_replace_self k v m h
  · rw [if_neg h]
    rw [alookup_append_of_none [(k, v)] k m
      (alookup_of_any_eq_false k m (Bool.eq_false_iff.mpr h))]
    simp [alookup]

theorem alookup_upsert_of_ne {α : Type} (m : List (String × α)) {k k' : String} (v : α)
    (hne : ¬ k' = k) :
    alookup (upsert m k' v) k = alookup m k := by
  unfold upsert
  by_cases h : m.any (fun p => p.1 == k') = true
  · rw [if_pos h]
    exact alookup_map_replace_ne k k' v hne m
  · rw [if_neg h]
    exact alookup_append_singleton_ne v hne m

theorem dlookup_upsert_self (d : Dataset) (k : String) (v : Rec) :
    dlookup (upsert d k v) k = some v :=
  alookup_upsert_self d k v

-- ------------------------------------------------------- BUILDER INVARIANTS

theorem processRow_inv {P : String × Rec → Prop}
    (hP : ∀ fn row npa nxx, resolveNpaNxx row = (npa, nxx) → acceptParts npa nxx = true →
      P (npa ++ nxx, mkRec fn row npa nxx))
    {d : Dataset} (hd : ∀ q ∈ d, P q) (fn : String) (row : Row) :
    ∀ q ∈ processRow d fn row, P q := by
  intro q hq
  unfold processRow at hq
  by_cases h : acceptParts (resolveNpaNxx row).1 (resolveNpaNxx row).2 = true
  · rw [if_pos h] at hq
    rcases mem_upsert hq with h1 | h1
    · exact hd q h1
    · rw [h1]
      exact hP fn row (resolveNpaNxx row).1 (resolveNpaNxx row).2 rfl h
  · rw [if_neg h] at hq
    exact hd q hq

theorem processFile_inv {P : String × Rec → Prop}
    (hP : ∀ fn row npa nxx, resolveNpaNxx row = (npa, nxx) → acceptParts npa nxx = true →
      P (npa ++ nxx, mkRec fn row npa nxx)) (fn : String) :
    ∀ (rows : List Row) (d : Dataset), (∀ q ∈ d, P q) → ∀ q ∈ processFile d fn rows, P q
  | [], _, hd => hd
  | row :: rows, d, hd =>
      processFile_inv hP fn rows (processRow d fn row) (processRow_inv hP hd fn row)

theorem build_dataGo_inv {P : String × Rec → Prop}
    (hP : ∀ fn row npa nxx, resolveNpaNxx row = (npa, nxx) → acceptParts npa nxx = true →
      P (npa ++ nxx, mkRec fn row npa nxx)) :
    ∀ (files : List (String × Except String (List Row))) (d data : Dataset),
      (∀ q ∈ d, P q) → build_dataGo d files = Except.ok data → ∀ q ∈ data, P q
  | [], d, data, hd, heq => by
      cases heq
      exact hd
  | f :: fs, d, data, hd, heq => by
      unfold build_dataGo at heq
      by_cases he : eligible f.1 = true
      · rw [if_pos he] at heq
        cases h2 : f.2 with
        | ok rows =>
          rw [h2] at heq
          exact build_dataGo_inv hP fs _ data (processFile_inv hP f.1 rows d hd) heq
        | error e =>
          rw [h2] at heq
          cases heq
      · rw [if_neg he] at heq
        exact build_dataGo_inv hP fs d data hd heq

theorem build_data_inv {P : String × Rec → Prop}
    (hP : ∀ fn row npa nxx, resolveNpaNxx row = (npa, nxx) → acceptParts npa nxx = true →
      P (npa ++ nxx, mkRec fn row npa nxx))
    {files : List (String × Except String (List Row))} {data : Dataset}
    (h : build_data files = Except.ok data) : ∀ q ∈ data, P q :=
  build_dataGo_inv hP files [] data (by intro q hq; cases hq) h

theorem pyIsdigit_all {s : String} (h : pyIsdigit s = true) :
    s.toList.all pyIsdigitChar = true := by
  simp only [pyIsdigit, Bool.and_eq_true] at h
  exact h.2

theorem acceptParts_spec {npa nxx : String} (h : acceptParts npa nxx = true) :
    npa.length = 3 ∧ nxx.length = 3 ∧ pyIsdigit npa = true ∧ pyIsdigit nxx = true := by
  unfold acceptParts at h
  simp only [Bool.and_eq_true] at h
  exact ⟨by simpa using h.1.1.1.2, by simpa using h.1.1.2, h.1.2, h.2⟩

theorem processRow_accepted (d : Dataset) (fn : String) (row : Row) {npa nxx : String}
    (hres : resolveNpaNxx row = (npa, nxx)) (hacc : acceptParts npa nxx = true) :
    processRow d fn row = upsert d (npa ++ nxx) (mkRec fn row npa nxx) := by
  unfold processRow
  rw [hres]
  rw [if_pos hacc]

-- ----------------------------------------------------------------- CLAIMS

/-- Counterexample to C1 as stated: Python's `str.isdigit` accepts
Arabic-Indic digits, so the row with NPA-NXX `٢٢٢-٥٥٥` is accepted by the
builder and stored under a 6-character prefix none of whose characters is
an ASCII digit — the emitted prefix is not "exactly 6 ASCII digits". -/
theorem C1_nonascii_digit_record_cex :
    build_data [("u.csv", Except.ok [C1urow])]
      = Except.ok [("٢٢٢٥٥٥", mkRec "u.csv" C1urow "٢٢٢" "٥٥٥")] ∧
    ("٢٢٢٥٥٥" : String).length = 6 ∧
    ("٢٢٢٥٥٥" : String).toList.all Char.isDigit = false :=
  ⟨rfl, rfl, rfl⟩

/-- C1 as amended: a record is added to the dataset only under a prefix of
exactly 6 characters, each passing Python's Unicode-aware digit test (so
digits, but not necessarily ASCII), obtained by concatenating a 3-character
all-digit NPA part and a 3-character all-digit NXX part (and the record's
own `pfx` field is that key); a row whose resolved parts fail the
acceptance check leaves the dataset unchanged. -/
theorem C1_emitted_prefix_six_digit_chars :
    (∀ (files : List (String × Except String (List Row))) (data : Dataset),
      build_data files = Except.ok data →
      ∀ q ∈ data, q.1.length = 6 ∧ q.1.toList.all pyIsdigitChar = true ∧
        ∃ npa nxx, q.1 = npa ++ nxx ∧ npa.length = 3 ∧ nxx.length = 3 ∧
          pyIsdigit npa = true ∧ pyIsdigit nxx = true ∧ q.2.pfx = q.1) ∧
    (∀ (d : Dataset) (fn : String) (row : Row),
      acceptParts (resolveNpaNxx row).1 (resolveNpaNxx row).2 = false →
      processRow d fn row = d) := by
  constructor
  · intro files data hok
    refine build_data_inv ?_ hok
    intro fn row npa nxx hres hacc
    obtain ⟨h3, h4, h5, h6⟩ := acceptParts_spec hacc
    refine ⟨?_, ?_, npa, nxx, rfl, h3, h4, h5, h6, rfl⟩
    · rw [String.length_append, h3, h4]
    · rw [toList_append, List.all_append, pyIsdigit_all h5, pyIsdigit_all h6]
      rfl
  · intro d fn row h
    unfold processRow
    rw [if_neg (by simp [h])]

/-- Witness for C1 as amended: the concrete accepted row `goodRow` yields
the key "212555", which satisfies the invariant. -/
theorem C1_emitted_prefix_six_digit_chars_w :
    ("212555" : String).length = 6 ∧ ("212555" : String).toList.all pyIsdigitChar = true ∧
    ∃ npa nxx, ("212555" : String) = npa ++ nxx ∧ npa.length = 3 ∧ nxx.length = 3 ∧
      pyIsdigit npa = true ∧ pyIsdigit nxx = true ∧
      (mkRec "a.csv" goodRow "212" "555").pfx = "212555" :=
  C1_emitted_prefix_six_digit_chars.1 [("a.csv", Except.ok [goodRow])]
    [("212555", mkRec "a.csv" goodRow "212" "555")] rfl
    ("212555", mkRec "a.csv" goodRow "212" "555") (List.mem_singleton.mpr rfl)

/-- C5: the type classifier equals its specification as an ordered rule
list evaluated top-down with first match winning — wireless parent, then
wireless keywords, then VoIP, then paging, then landline, else blank. -/
theorem C5_type_rule_order (company brand : String) :
    detect_type company brand = detect_type_spec company brand := rfl

/-- C7: the state table has 51 entries; `"ca"` in any letter case resolves
to `"California"`; the unrecognized `"ZZ"` passes through unchanged; in
general any code whose uppercase form misses the table passes through. -/
theorem C7_state_resolution :
    STATE_MAP.length = 51 ∧
    normState "ca" = "California" ∧ normState "Ca" = "California" ∧
    normState "cA" = "California" ∧ normState "CA" = "California" ∧
    normState "ZZ" = "ZZ" ∧
    ∀ s, stateLookup (pyUpper s) = none → normState s = s := by
  refine ⟨rfl, rfl, rfl, rfl, rfl, rfl, ?_⟩
  intro s h
  unfold normState
  rw [h]
  rfl

/-- Witness for C7: the unknown code "QX" passes through unchanged. -/
theorem C7_state_resolution_w : normState "QX" = "QX" :=
  C7_state_resolution.2.2.2.2.2.2 "QX" rfl

/-- Counterexample to C2 as stated: `C2row` has a hyphenated combined field
with non-numeric parts and purely numeric separate NPA/NXX columns, yet
resolution yields nothing and the row is skipped — it does not fall through
to method (3). -/
theorem C2_hyphen_no_fallthrough_cex :
    combinedField C2row = "ABC-DEF" ∧
    pyIsdigit (pyStrip (Row.getS C2row "NPA")) = true ∧
    pyIsdigit (pyStrip (Row.getS C2row "NXX")) = true ∧
    resolveNpaNxx C2row = ("", "") ∧
    processRow [] "f.csv" C2row = [] :=
  ⟨rfl, rfl, rfl, rfl, rfl⟩

/-- C2 as amended: resolution commits to one method by the shape of the
combined field — a hyphen commits to method 1 (failure skips the row without
consulting the separate columns), else a 6-digit field uses method 2, else
method 3 is used. -/
theorem C2_resolution_commits_by_shape (row : Row) :
    resolveNpaNxx row = resolve_spec row := by
  simp only [resolveNpaNxx, resolve_spec, method1, method2, method3]
  by_cases h : (combinedField row).toList.contains '-' = true
  · rw [if_pos h, if_pos h]
    by_cases h2 : (pyIsdigit (splitOnce (combinedField row) '-').1 &&
        pyIsdigit (splitOnce (combinedField row) '-').2) = true
    · rw [if_pos h2, if_pos h2]
      rfl
    · rw [if_neg h2, if_neg h2]
      rfl
  · rw [if_neg h, if_neg h]
    by_cases h2 : ((combinedField row).length == 6 && pyIsdigit (combinedField row)) = true
    · rw [if_pos h2, if_pos h2]
      rfl
    · rw [if_neg h2, if_neg h2]
      by_cases h3 : (pyIsdigit (pyStrip (Row.getS row "NPA")) &&
          pyIsdigit (pyStrip (Row.getS row "NXX"))) = true
      · rw [if_pos h3, if_pos h3]
        rfl
      · rw [if_neg h3, if_neg h3]
        rfl

/-- Counterexample to C3 as stated: a read error on one eligible tabular
file aborts the whole build, so the good file's records never reach the
dataset — even though the good file alone would produce a record. -/
theorem C3_bad_tabular_file_aborts_cex :
    build_data [("bad.csv", Except.error "boom"), ("good.csv", Except.ok [goodRow])]
      = Except.error "boom" ∧
    build_data [("good.csv", Except.ok [goodRow])]
      = Except.ok [("212555", mkRec "good.csv" goodRow "212" "555")] :=
  ⟨rfl, rfl⟩

/-- C3 as amended: only corrupt zip containers are skipped with the run
continuing (the other containers' files are still extracted); an error while
reading an eligible tabular file during the dataset build propagates and
aborts the build. -/
theorem C3_zip_skip_tabular_abort (goodFiles : List String) (rows : List Row) :
    extract_all [("bad.zip", Except.error ()), ("good.zip", Except.ok goodFiles)]
      = goodFiles ∧
    build_data [("bad.csv", Except.error "boom"), ("good.csv", Except.ok rows)]
      = Except.error "boom" :=
  ⟨rfl, rfl⟩

/-- C9: the end-to-end scenario — header `NPA-NXX,Company,State`, data row
`212-555,AT&T Mobility LLC,NY` — yields exactly one record, with prefix
"212555", carrier "AT&T", type "Mobile", state "New York". -/
theorem C9_end_to_end :
    build_data [("assign.txt", Except.ok (textRows C9lines))]
      = Except.ok [("212555", mkRec "assign.txt" C9row "212" "555")] ∧
    (mkRec "assign.txt" C9row "212" "555").pfx = "212555" ∧
    (mkRec "assign.txt" C9row "212" "555").carrier = "AT&T" ∧
    (mkRec "assign.txt" C9row "212" "555").type = "Mobile" ∧
    (mkRec "assign.txt" C9row "212" "555").state = "New York" :=
  ⟨rfl, rfl, rfl, rfl, rfl⟩

/-- C6: when no brand keyword and no type keyword of any family occurs in
the uppercased company string, the emitted record's carrier is the original
company string unmodified and its type is the empty string. -/
theorem C6_unmatched_company_fallback (fn : String) (row : Row) (npa nxx : String)
    (hb : ∀ rule ∈ BRAND_KEYWORDS, ∀ kw ∈ rule.1, strIn kw (pyUpper (companyOf row)) = false)
    (ht : ∀ kw ∈ WIRELESS_KEYWORDS ++ VOIP_KEYWORDS ++ PAGING_KEYWORDS ++ LANDLINE_KEYWORDS,
      strIn kw (pyUpper (companyOf row)) = false) :
    (mkRec fn row npa nxx).carrier = companyOf row ∧ (mkRec fn row npa nxx).type = "" := by
  have hnb : normalize_brand (companyOf row) = "" := by
    simp only [normalize_brand]
    have hfind : BRAND_KEYWORDS.find?
        (fun kb => kb.1.any (fun kw => strIn kw (pyUpper (companyOf row)))) = none := by
      apply List.find?_eq_none.mpr
      intro kb hkb hany
      rcases List.any_eq_true.mp hany with ⟨kw, hkw, hin⟩
      rw [hb kb hkb kw hkw] at hin
      cases hin
    rw [hfind]
  have hfam : ∀ (fam : List String), (∀ kw ∈ fam, strIn kw (pyUpper (companyOf row)) = false) →
      fam.any (fun kw => strIn kw (pyUpper (companyOf row))) = false := by
    intro fam hf
    apply List.any_eq_false.mpr
    intro kw hkw
    rw [hf kw hkw]
    simp
  have hwa := hfam WIRELESS_KEYWORDS (fun kw hkw => ht kw (by simp [hkw]))
  have hva := hfam VOIP_KEYWORDS (fun kw hkw => ht kw (by simp [hkw]))
  have hpa := hfam PAGING_KEYWORDS (fun kw hkw => ht kw (by simp [hkw]))
  have hla := hfam LANDLINE_KEYWORDS (fun kw hkw => ht kw (by simp [hkw]))
  constructor
  · show pyOr (normalize_brand (companyOf row)) (companyOf row) = companyOf row
    rw [hnb]
    rfl
  · show detect_type (companyOf row) (normalize_brand (companyOf row)) = ""
    rw [hnb]
    simp only [detect_type]
    rw [if_neg (by decide)]
    rw [if_neg (by simp [hwa]), if_neg (by simp [hva]), if_neg (by simp [hpa]),
      if_neg (by simp [hla])]

/-- Witness for C6: "ACME TELECOM" matches nothing, so carrier falls back
and type stays blank. -/
theorem C6_unmatched_company_fallback_w :
    (mkRec "f.csv" C6row "212" "555").carrier = "ACME TELECOM" ∧
    (mkRec "f.csv" C6row "212" "555").type = "" :=
  C6_unmatched_company_fallback "f.csv" C6row "212" "555" (by decide) (by decide)

/-- C8: when two accepted rows with the same prefix are processed in
sequence, the dataset entry for that prefix is exactly the record built from
the second row — every field comes from the second row. -/
theorem C8_last_writer_wins (d : Dataset) (fn1 : String) (row1 : Row) (fn2 : String)
    (row2 : Row) (npa1 nxx1 npa2 nxx2 : String)
    (_h1 : resolveNpaNxx row1 = (npa1, nxx1)) (_a1 : acceptParts npa1 nxx1 = true)
    (h2 : resolveNpaNxx row2 = (npa2, nxx2)) (a2 : acceptParts npa2 nxx2 = true)
    (_hk : npa1 ++ nxx1 = npa2 ++ nxx2) :
    dlookup (processRow (processRow d fn1 row1) fn2 row2) (npa2 ++ nxx2)
      = some (mkRec fn2 row2 npa2 nxx2) := by
  rw [processRow_accepted (processRow d fn1 row1) fn2 row2 h2 a2]
  exact dlookup_upsert_self _ _ _

/-- Witness for C8: two concrete rows with prefix 212555; the stored record
is the one built from the second row. -/
theorem C8_last_writer_wins_w :
    dlookup (processRow (processRow [] "f1.csv" C8row1) "f2.csv" C8row2) "212555"
      = some (mkRec "f2.csv" C8row2 "212" "555") :=
  C8_last_writer_wins [] "f1.csv" C8row1 "f2.csv" C8row2 "212" "555" "212" "555"
    rfl rfl rfl rfl rfl

/-- C10: every record of the built dataset has equal `company` and
`company_original` fields, and the corresponding relational-table tuple has
equal entries in the two columns. -/
theorem C10_company_fields_agree (files : List (String × Except String (List Row)))
    (data : Dataset) (hok : build_data files = Except.ok data) :
    (∀ q ∈ data, q.2.company = q.2.company_original) ∧
    (∀ trow ∈ save_sqlite data, trow.get? 2 = trow.get? 3) := by
  have hmain : ∀ q ∈ data, q.2.company = q.2.company_original := by
    refine build_data_inv ?_ hok
    intro fn row npa nxx hres hacc
    rfl
  refine ⟨hmain, ?_⟩
  intro trow htrow
  rcases List.mem_map.mp htrow with ⟨q, hq, hrow⟩
  rw [← hrow]
  show some q.2.company = some q.2.company_original
  rw [hmain q hq]

/-- Witness for C10: the record built from `goodRow` has equal company
fields. -/
theorem C10_company_fields_agree_w :
    (mkRec "a.csv" goodRow "212" "555").company
      = (mkRec "a.csv" goodRow "212" "555").company_original :=
  (C10_company_fields_agree [("a.csv", Except.ok [goodRow])]
      [("212555", mkRec "a.csv" goodRow "212" "555")] rfl).1
    ("212555", mkRec "a.csv" goodRow "212" "555") (List.mem_singleton.mpr rfl)

-- ------------------------------------------------------------- C4 LEMMATA

theorem map_fst_zip_eq_take {α β : Type} :
    ∀ (l1 : List α) (l2 : List β), (l1.zip l2).map Prod.fst = l1.take l2.length
  | [], _ => by simp
  | _ :: _, [] => by simp
  | a :: l1, b :: l2 => by
      simp only [List.zip_cons_cons, List.map_cons, List.length_cons, List.take_succ_cons]
      rw [map_fst_zip_eq_take l1 l2]

theorem mkDictGo_alookup_of_not_mem (k : String) :
    ∀ (ps : List (String × String)) (acc : Row),
      (∀ p ∈ ps, ¬ p.1 = k) →
      alookup (ps.foldl (fun m kv => upsert m kv.1 kv.2) acc) k = alookup acc k
  | [], _, _ => rfl
  | kv :: ps, acc, h => by
      rw [List.foldl_cons]
      rw [mkDictGo_alookup_of_not_mem k ps (upsert acc kv.1 kv.2)
        (fun p hp => h p (List.mem_cons_of_mem kv hp))]
      exact alookup_upsert_of_ne acc kv.2 (h kv (List.mem_cons_self kv ps))

theorem mkDictGo_alookup_of_mem_nodup (k v : String) :
    ∀ (ps : List (String × String)) (acc : Row),
      (ps.map Prod.fst).Nodup → (k, v) ∈ ps →
      alookup (ps.foldl (fun m kv => upsert m kv.1 kv.2) acc) k = some v
  | [], _, _, hmem => absurd hmem (List.not_mem_nil _)
  | kv :: ps, acc, hnd, hmem => by
      rw [List.map_cons, List.nodup_cons] at hnd
      rw [List.foldl_cons]
      rcases List.mem_cons.mp hmem with he | hmem2
      · have hk1 : kv.1 = k := by rw [← he]
        have hnot : ∀ p ∈ ps, ¬ p.1 = k := by
          intro p hp hpk
          apply hnd.1
          rw [hk1, ← hpk]
          exact List.mem_map_of_mem Prod.fst hp
        rw [mkDictGo_alookup_of_not_mem k ps _ hnot]
        rw [← he]
        exact alookup_upsert_self acc k v
      · exact mkDictGo_alookup_of_mem_nodup k v ps (upsert acc kv.1 kv.2) hnd.2 hmem2

theorem mkDict_get_of_mem_nodup {ps : List (String × String)} {k v : String}
    (hnd : (ps.map Prod.fst).Nodup) (hmem : (k, v) ∈ ps) :
    Row.get? (mkDict ps) k = some v :=
  mkDictGo_alookup_of_mem_nodup k v ps [] hnd hmem

theorem mkDict_get_of_not_mem {ps : List (String × String)} {k : String}
    (h : ∀ p ∈ ps, ¬ p.1 = k) :
    Row.get? (mkDict ps) k = none :=
  mkDictGo_alookup_of_not_mem k ps [] h

/-- Counterexample to C4 as stated: in a sheet whose data row has fewer
cells than the header row, the produced row mapping has the trailing header
absent (lookup yields `none`), not mapped to the empty string. -/
theorem C4_short_row_absent_key_cex :
    xlsxRows [[some "A", some "B"], [some "x"]] = [[("A", "x")]] ∧
    Row.get? [("A", "x")] "B" = none :=
  ⟨rfl, rfl⟩

/-- C4 as amended: headers and values are stripped and `None` cells are
exposed as the empty string under their header name; but the zip against the
headers truncates, so when a data row is shorter than the header row the
trailing headers are absent keys in the row mapping. -/
theorem C4_none_cells_empty_short_rows_truncate (hrow cells : List (Option String)) :
    ∀ m ∈ xlsxRows [hrow, cells], (hrow.map pyStrCell).Nodup →
      (∀ hc, (hc, (none : Option String)) ∈ hrow.zip cells →
        Row.get? m (pyStrCell hc) = some "") ∧
      (∀ k, k ∈ (hrow.map pyStrCell).drop cells.length → Row.get? m k = none) := by
  intro m hmem hnd
  have hm : m = mkDict ((hrow.map pyStrCell).zip (cells.map pyStrCell)) := by
    simp only [xlsxRows, List.map_cons, List.map_nil, List.mem_singleton] at hmem
    exact hmem
  subst hm
  constructor
  · intro hc hmemz
    have h1 : (pyStrCell hc, "") ∈ (hrow.map pyStrCell).zip (cells.map pyStrCell) := by
      rw [List.zip_map]
      exact List.mem_map_of_mem (Prod.map pyStrCell pyStrCell) hmemz
    have hndz : (((hrow.map pyStrCell).zip (cells.map pyStrCell)).map Prod.fst).Nodup := by
      rw [map_fst_zip_eq_take]
      exact (List.take_sublist _ _).nodup hnd
    exact mkDict_get_of_mem_nodup hndz h1
  · intro k hk
    apply mkDict_get_of_not_mem
    intro p hp hpk
    have hfst : p.1 ∈ (hrow.map pyStrCell).take ((cells.map pyStrCell).length) := by
      rw [← map_fst_zip_eq_take]
      exact List.mem_map_of_mem Prod.fst hp
    rw [hpk, List.length_map] at hfst
    have hsplit := List.take_append_drop cells.length (hrow.map pyStrCell)
    rw [← hsplit, List.nodup_append] at hnd
    exact hnd.2.2 hfst hk

/-- Witness for C4 as amended: with headers A,B,C and cells x,None the
produced row maps B to the empty string and has no key C. -/
theorem C4_none_cells_empty_short_rows_truncate_w :
    Row.get? [("A", "x"), ("B", "")] "B" = some "" ∧
    Row.get? [("A", "x"), ("B", "")] "C" = none := by
  have h := C4_none_cells_empty_short_rows_truncate
    [some "A", some "B", some "C"] [some "x", none]
    [("A", "x"), ("B", "")] (List.mem_singleton.mpr rfl) (by decide)
  exact ⟨h.1 (some "B") (by decide), h.2 "C" (by decide)⟩

end Nanpa
